import Mathlib

/-!
Shallow embedding of `src/data_extractor.py` (class `DataExtractor`).

Python dynamic values that can appear in the record fields used by the
transform (`id`, `created_on`, `unit_price`, `quantity`, `type`) are
modelled by the inductive `PyVal`: integers, floats (as exact rationals),
strings, and `None` as a representative of types on which `int()` raises
`TypeError`.  Exceptions escaping `transform_data` are modelled by the
error type `PyErr` through `Except`.  File contents are passed as values:
the expired-invoices file is `Option (List String)` (`none` = the file
does not exist, `some lines` = the lines as Python file iteration yields
them), and the pickled dataset is `Option (List Record)` (`none` =
`load_data` was never called, mirroring `self.data = None`).

Python float arithmetic is modelled in exact rationals; the only float
operations the transform performs on the modelled fields are `int(x)`
(truncation toward zero) and `str(x)` (whose result always contains a
character that is not a digit, such as a decimal point), both captured
faithfully below.
-/

/-- Errors that the Python code can raise or catch. -/
inductive PyErr where
  | valueError
  | typeError
  | keyError
deriving DecidableEq, Repr

/-- A dynamic Python value as it can appear in the invoice fields used by
`transform_data`: an int, a float (modelled as an exact rational), a
string, or `None` (standing for any value whose type makes `int()` raise
`TypeError` rather than `ValueError`). -/
inductive PyVal where
  | vint (n : Int)
  | vfloat (q : ℚ)
  | vstr (s : String)
  | vnone
deriving DecidableEq, Repr

/-- Source helper `ensure_str(value) = str(value)`.  For ints this is the
usual decimal rendering (`str(7) = "7"`, `str(-5) = "-5"`), matched by
Lean `toString` on `Int`; strings are returned unchanged.  The float and
`None` renderings are only ever fed to membership tests against the
expired set in the claims, never inspected character by character, so a
simple rendering is used for them. -/
def ensure_str (v : PyVal) : String :=
  match v with
  | .vint n => toString n
  | .vfloat q => toString q
  | .vstr s => s
  | .vnone => "None"

/-- Characters Python `int()` accepts as digits: the Unicode decimal
digits (category Nd).  The model carries the two ranges the development
exercises, ASCII `0`-`9` (code points 48-57) and the Arabic-Indic
digits (code points 1632-1641) as a representative non-ASCII decimal
range; other exotic Nd ranges behave the same way and are not
enumerated. -/
def isDecDigit (c : Char) : Bool :=
  (48 ≤ c.toNat && c.toNat ≤ 57) || (1632 ≤ c.toNat && c.toNat ≤ 1641)

/-- Characters that Python `str.isdigit()` accepts but `int()` rejects
(digit characters outside category Nd), represented by the superscript
digits `¹` (185), `²` (178) and `³` (179).  A string of such characters
passes the line 89-90 guard and then makes the `int()` call inside the
sum raise an uncaught `ValueError`. -/
def isSupDigit (c : Char) : Bool :=
  c.toNat = 178 || c.toNat = 179 || c.toNat = 185

/-- Python `str.isdigit()` on one character: true on decimal digits and
on the digit-but-not-decimal characters above. -/
def pyCharIsdigit (c : Char) : Bool :=
  isDecDigit c || isSupDigit c

/-- Python `str(v).isdigit()`, the guard on line 90 of the source.  For a
string this asks that it is non-empty and every character is a digit in
the `str.isdigit` sense (which is wider than what `int()` accepts).
`str` of an `int` is all ASCII digits exactly when the int is
non-negative (a negative one renders with a leading minus sign).  `str`
of a float always contains a decimal point or an exponent marker, and
`str(None) = "None"`, so neither is ever all digits. -/
def pyIsdigit (v : PyVal) : Bool :=
  match v with
  | .vint n => decide (0 ≤ n)
  | .vfloat _ => false
  | .vstr s => !s.toList.isEmpty && s.toList.all pyCharIsdigit
  | .vnone => false

/-- Numeric value of one decimal digit character (ASCII or
Arabic-Indic). -/
def decDigitVal (c : Char) : Nat :=
  if c.toNat < 1632 then c.toNat - 48 else c.toNat - 1632

/-- Decimal value of a list of decimal digit characters, most
significant first. -/
def digitsToNat (l : List Char) : Nat :=
  l.foldl (fun a c => 10 * a + decDigitVal c) 0

/-- Surrounding-whitespace trimming as Python `int()` applies to a string
argument before parsing. -/
def trimChars (l : List Char) : List Char :=
  ((l.dropWhile Char.isWhitespace).reverse.dropWhile Char.isWhitespace).reverse

/-- Python `int(s)` for a string `s`: optional surrounding whitespace,
optional sign, then one or more decimal digits; anything else (for
example `"10.9"`, `"abc"`, or a digit-but-not-decimal string such as
`"²"`) raises `ValueError`, modelled as `none`. -/
def parseIntStr (s : String) : Option Int :=
  match trimChars s.toList with
  | [] => none
  | c :: rest =>
    if c = '-' then
      if !rest.isEmpty && rest.all isDecDigit then some (-(digitsToNat rest : Int)) else none
    else if c = '+' then
      if !rest.isEmpty && rest.all isDecDigit then some (digitsToNat rest : Int) else none
    else if (c :: rest).all isDecDigit then some (digitsToNat (c :: rest) : Int) else none

/-- Truncation of a rational toward zero, the behaviour of Python `int()`
on a float (`int(10.9) = 10`, `int(-10.9) = -10`). -/
def ratTrunc (q : ℚ) : Int :=
  if q.num < 0 then -(Int.ofNat (q.num.natAbs / q.den)) else Int.ofNat (q.num.natAbs / q.den)

/-- Python `int(v)`: succeeds on ints, truncates floats toward zero,
parses integer strings (raising `ValueError` on malformed ones), and
raises `TypeError` on other types such as `None`. -/
def pyInt (v : PyVal) : Except PyErr Int :=
  match v with
  | .vint n => .ok n
  | .vfloat q => .ok (ratTrunc q)
  | .vstr s =>
    match parseIntStr s with
    | some n => .ok n
    | none => .error .valueError
  | .vnone => .error .typeError

/-- The integer value of a `PyVal` on which `pyInt` succeeds, with 0 as
a placeholder on failures.  Note the `pyIsdigit` guard does not make
`pyInt` succeed: a digit-but-not-decimal string such as `"²"` passes the
guard yet fails conversion (the faithful fallible computation of the
line 89-90 sum is `invoice_total_exc` below; `invoice_total` is its
value whenever it returns one). -/
def pyIntD (v : PyVal) : Int :=
  match pyInt v with
  | .ok n => n
  | .error _ => 0

/-- One entry of a record item list: the nested `item` mapping fields
(`id`, `name`, `unit_price`, `type`) plus the sibling `quantity`.  The
`type` field is optional because `item_data["type"]` on line 80 raises
`KeyError` when it is missing; the fields the code reads unconditionally
before any guard are kept mandatory. -/
structure ItemEntry where
  item_id : PyVal
  name : String
  unit_price : PyVal
  type : Option PyVal
  quantity : PyVal
deriving DecidableEq, Repr

/-- An invoice record.  `created_on` is optional: the subscript
`record["created_on"]` on line 56 raises `KeyError` on a missing key,
and that error is not among the classes the surrounding handler
catches, so the absence must be expressible.  `items` is optional for
the explicit `"items" not in record` guard of line 64.  `id` is kept
mandatory: the data model of the spec lists it as the join key of every
record (a record without it would likewise raise `KeyError`, at
line 52, before anything else). -/
structure Record where
  id : PyVal
  created_on : Option PyVal
  items : Option (List ItemEntry)
deriving DecidableEq, Repr

/-- One output row of the transform.  `percentage_in_invoice` is a Python
float computed by true division; it is modelled in exact rationals. -/
structure FlatRow where
  invoice_id : String
  created_on : String
  invoiceitem_id : String
  invoiceitem_name : String
  type : String
  unit_price : Int
  total_price : Int
  percentage_in_invoice : ℚ
  is_expired : Bool
deriving DecidableEq, Repr

deriving instance DecidableEq for Except

/-- The dictionary `type_conversion = {0: Material, 1: Equipment,
2: Service, 3: Other}` read through `.get(value, "Other")`: codes 0..2
map to their labels, 3 and every other present value fall to "Other".
Python dictionary lookup identifies a float with the equal int (`0.0`
hashes like `0`), which the float arm reproduces. -/
def type_conversion (v : PyVal) : String :=
  match v with
  | .vint 0 => "Material"
  | .vint 1 => "Equipment"
  | .vint 2 => "Service"
  | .vfloat q =>
    if q = 0 then "Material" else if q = 1 then "Equipment" else
      if q = 2 then "Service" else "Other"
  | _ => "Other"

/-- The guard of the generator on lines 89-90: both the raw `quantity`
and the raw `unit_price` must render as all-digit strings. -/
def digitOk (e : ItemEntry) : Bool :=
  pyIsdigit e.quantity && pyIsdigit e.unit_price

/-- The value of the line 89-90 sum whenever it completes: the left
fold of `int(unit_price) * int(quantity)` over the items passing
`digitOk` (for a guard-passing item whose conversion would fail,
`pyIntD` supplies the placeholder 0; `invoice_total_exc` below is the
faithful computation, and whenever it returns a value, that value is
`invoice_total`). -/
def invoice_total (items : List ItemEntry) : Int :=
  (items.filter digitOk).foldl (fun acc e => acc + pyIntD e.unit_price * pyIntD e.quantity) 0

/-- The line 89-90 sum as Python evaluates it, item by item in source
order: the guard first, then `int(unit_price)`, then `int(quantity)`.
These `int()` calls sit outside any handler, so a guard-passing
digit-but-not-decimal string (such as `"²"`) raises `ValueError` out of
the sum. -/
def invoice_total_from (acc : Int) : List ItemEntry → Except PyErr Int
  | [] => .ok acc
  | e :: rest =>
    if digitOk e then
      match pyInt e.unit_price with
      | .error err => .error err
      | .ok u =>
        match pyInt e.quantity with
        | .error err => .error err
        | .ok q => invoice_total_from (acc + u * q) rest
    else invoice_total_from acc rest

/-- Lines 89-90, `invoice_total = sum(...)`, as a fallible
computation. -/
def invoice_total_exc (items : List ItemEntry) : Except PyErr Int :=
  invoice_total_from 0 items

/-- Modelled behaviour of `dateutil.parser.parse` followed by
`strftime("%Y-%m-%d")` for the date formats exercised by the claims: an
ISO `YYYY-MM-DD` string parses and reformats to itself; any other string
raises `ValueError`; a non-string argument raises `TypeError`.  (The real
parser accepts more formats; no claim depends on that breadth, only on
which exception class escapes.) -/
def date_parse (v : PyVal) : Except PyErr String :=
  match v with
  | .vstr s =>
    match s.toList with
    | [y1, y2, y3, y4, '-', m1, m2, '-', d1, d2] =>
      if ([y1, y2, y3, y4, m1, m2, d1, d2].all Char.isDigit) &&
          (let m := 10 * (m1.toNat - 48) + (m2.toNat - 48)
           let d := 10 * (d1.toNat - 48) + (d2.toNat - 48)
           decide (1 ≤ m) && decide (m ≤ 12) && decide (1 ≤ d) && decide (d ≤ 31))
      then .ok s else .error .valueError
    | _ => .error .valueError
  | _ => .error .typeError

/-- Lines 54-60: the `created_on` conversion with its
`except (ValueError, TypeError)` handler, which catches both possible
errors and substitutes the empty string; hence this step is total. -/
def created_on_of (v : PyVal) : String :=
  match date_parse v with
  | .ok s => s
  | .error _ => ""

/-- Lines 68-103, body of the item loop for one entry `e` of `items`.
Order follows the source: `int(unit_price)` first (only `ValueError` is
caught, anything else propagates), then the `type` lookup (`KeyError` on
a missing key), then `int(quantity)` (again only `ValueError` caught),
then the line 89-90 sum (whose own `int()` calls are unguarded and can
raise `ValueError`), then the row is assembled.  `.ok none` means the
item was skipped by a `continue`. -/
def process_item (invoice_id created_on : String) (is_expired : Bool)
    (items : List ItemEntry) (e : ItemEntry) : Except PyErr (Option FlatRow) :=
  match pyInt e.unit_price with
  | .error .valueError => .ok none
  | .error err => .error err
  | .ok up =>
    match e.type with
    | none => .error .keyError
    | some tv =>
      match pyInt e.quantity with
      | .error .valueError => .ok none
      | .error err => .error err
      | .ok qn =>
        let tp := up * qn
        match invoice_total_exc items with
        | .error err => .error err
        | .ok it =>
          .ok (some {
            invoice_id := invoice_id
            created_on := created_on
            invoiceitem_id := ensure_str e.item_id
            invoiceitem_name := e.name
            type := type_conversion tv
            unit_price := up
            total_price := tp
            percentage_in_invoice := if it ≠ 0 then (tp : ℚ) / (it : ℚ) else 0
            is_expired := is_expired })

/-- The item loop over a suffix `l` of the invoice item list `items`
(the full list is carried separately because line 89 recomputes the
invoice total from all of `record["items"]` for every row). -/
def process_items (invoice_id created_on : String) (is_expired : Bool)
    (items : List ItemEntry) : List ItemEntry → Except PyErr (List FlatRow)
  | [] => .ok []
  | e :: rest =>
    match process_item invoice_id created_on is_expired items e with
    | .error err => .error err
    | .ok none => process_items invoice_id created_on is_expired items rest
    | .ok (some row) =>
      match process_items invoice_id created_on is_expired items rest with
      | .error err => .error err
      | .ok rows => .ok (row :: rows)

/-- Lines 51-103, the per-record body: id coercion, then the
`record["created_on"]` subscript of line 56 (raising `KeyError` when the
key is missing, a class the `except (ValueError, TypeError)` handler
does not catch), then date normalisation (total on present values, both
caught classes substituted by the empty string), the expiration
membership test, the missing-items guard (`continue`, contributing zero
rows), and the item loop.  The Python set of expired ids is modelled by
the list of its elements; the only operation ever applied to it is
membership. -/
def process_record (expired : List String) (r : Record) : Except PyErr (List FlatRow) :=
  let invoice_id := ensure_str r.id
  match r.created_on with
  | none => .error .keyError
  | some d =>
    let created_on := created_on_of d
    let is_expired := expired.contains invoice_id
    match r.items with
    | none => .ok []
    | some items => process_items invoice_id created_on is_expired items items

/-- The record loop accumulating `flat_data` in source order. -/
def flat_data (expired : List String) : List Record → Except PyErr (List FlatRow)
  | [] => .ok []
  | r :: rs =>
    match process_record expired r with
    | .error err => .error err
    | .ok rows =>
      match flat_data expired rs with
      | .error err => .error err
      | .ok rest => .ok (rows ++ rest)

/-- Code-point lexicographic strict comparison of character lists: the
semantics of Python string `<`. -/
def charsLt : List Char → List Char → Bool
  | [], [] => false
  | [], _ :: _ => true
  | _ :: _, [] => false
  | a :: as, b :: bs =>
    if a.toNat < b.toNat then true
    else if b.toNat < a.toNat then false
    else charsLt as bs

/-- Python `<` on the pair `(a1, a2)` versus `(b1, b2)` of strings:
lexicographic on the pair, code-point lexicographic on each string. -/
def pairLt (a1 a2 b1 b2 : String) : Bool :=
  charsLt a1.toList b1.toList ||
    (a1.toList == b1.toList && charsLt a2.toList b2.toList)

/-- Strict version of the line 106 sort key comparison. -/
def row_lt (a b : FlatRow) : Bool :=
  pairLt a.invoice_id a.invoiceitem_id b.invoice_id b.invoiceitem_id

/-- The non-strict key order `a` sorts no later than `b` that Python
`sorted` realises with the line 106 key: not (key of `b` < key of `a`). -/
def row_le (a b : FlatRow) : Bool :=
  !(row_lt b a)

/-- The key order as a decidable proposition, for `List.insertionSort`. -/
def rowLeP (a b : FlatRow) : Prop :=
  row_le a b = true

instance : DecidableRel rowLeP :=
  fun a b => instDecidableEqBool (row_le a b) true

/-- Lines 38-106, `transform_data`.  `data = none` models calling it
before `load_data`; the guard on line 45 then raises `ValueError`.
Otherwise the rows are produced in source order and finally sorted with
Python `sorted` under the line 106 key.  Python `sorted` is a stable
sort, and a stable sort of a given list under a given total preorder has
a unique possible output, so the (stable) insertion sort used here
computes exactly the list Python produces. -/
def transform_data (expired : List String) (data : Option (List Record)) :
    Except PyErr (List FlatRow) :=
  match data with
  | none => .error .valueError
  | some records =>
    match flat_data expired records with
    | .error err => .error err
    | .ok rows => .ok (rows.insertionSort rowLeP)

/-- Python `line.strip()`: the line with surrounding whitespace
removed. -/
def pyStrip (s : String) : String :=
  String.mk (trimChars s.toList)

/-- Lines 19-28, `load_expired_invoices`: a missing file (`none`) yields
the empty set after a diagnostic; otherwise each line is stripped of
surrounding whitespace and collected.  The Python set is modelled by the
list of the stripped lines (all downstream use is membership, for which
this is equivalent); note the code does not filter out empty strings
arising from blank lines. -/
def load_expired_invoices (file : Option (List String)) : List String :=
  match file with
  | none => []
  | some lines => lines.map pyStrip

/-! Concrete inputs and expected outputs used by witnesses and
counterexamples below. -/

def w2item : ItemEntry :=
  { item_id := .vstr "1", name := "X", unit_price := .vstr "10",
    type := some (.vint 0), quantity := .vstr "2" }

def w2rec : Record :=
  { id := .vint 5, created_on := some (.vstr "2024-05-01"), items := some [w2item] }

def w2row : FlatRow :=
  { invoice_id := "5", created_on := "2024-05-01", invoiceitem_id := "1",
    invoiceitem_name := "X", type := "Material", unit_price := 10,
    total_price := 20, percentage_in_invoice := 1, is_expired := false }

def w3item : ItemEntry :=
  { item_id := .vstr "9", name := "Y", unit_price := .vstr "3",
    type := some (.vint 2), quantity := .vstr "4" }

def w3rec : Record :=
  { id := .vstr "z", created_on := some (.vstr "nope"), items := some [w3item] }

def w3row : FlatRow :=
  { invoice_id := "z", created_on := "", invoiceitem_id := "9",
    invoiceitem_name := "Y", type := "Service", unit_price := 3,
    total_price := 12, percentage_in_invoice := 1, is_expired := false }

def w4badItem : ItemEntry :=
  { item_id := .vstr "1", name := "B", unit_price := .vstr "7",
    type := none, quantity := .vstr "1" }

def w4goodItem : ItemEntry :=
  { item_id := .vstr "1", name := "G", unit_price := .vstr "2",
    type := some (.vint 9), quantity := .vstr "3" }

def w4rec : Record :=
  { id := .vint 4, created_on := some (.vstr "2024-02-02"), items := some [w4goodItem] }

def w4row : FlatRow :=
  { invoice_id := "4", created_on := "2024-02-02", invoiceitem_id := "1",
    invoiceitem_name := "G", type := "Other", unit_price := 2,
    total_price := 6, percentage_in_invoice := 1, is_expired := false }

def w5aItem : ItemEntry :=
  { item_id := .vstr "1", name := "A", unit_price := .vstr "oops",
    type := some (.vint 0), quantity := .vstr "1" }

def w5bItem : ItemEntry :=
  { item_id := .vstr "2", name := "B", unit_price := .vstr "4",
    type := some (.vint 1), quantity := .vstr "bad" }

def w5cItem : ItemEntry :=
  { item_id := .vstr "3", name := "C", unit_price := .vnone,
    type := some (.vint 0), quantity := .vstr "1" }

def w6item : ItemEntry :=
  { item_id := .vstr "1", name := "Z", unit_price := .vstr "1",
    type := some (.vint 1), quantity := .vstr "1" }

def w6rec : Record :=
  { id := .vint 6, created_on := some (.vstr "2024-06-01"), items := some [w6item] }

def w8recA : Record :=
  { id := .vint 20, created_on := some (.vstr "2024-01-15"),
    items := some [{ item_id := .vstr "9", name := "X", unit_price := .vstr "1",
                     type := some (.vint 0), quantity := .vstr "1" }] }

def w8recB : Record :=
  { id := .vint 10, created_on := some (.vstr "2024-01-15"),
    items := some [{ item_id := .vstr "5", name := "Y", unit_price := .vstr "2",
                     type := some (.vint 0), quantity := .vstr "1" }] }

def w8rowA : FlatRow :=
  { invoice_id := "20", created_on := "2024-01-15", invoiceitem_id := "9",
    invoiceitem_name := "X", type := "Material", unit_price := 1,
    total_price := 1, percentage_in_invoice := 1, is_expired := false }

def w8rowB : FlatRow :=
  { invoice_id := "10", created_on := "2024-01-15", invoiceitem_id := "5",
    invoiceitem_name := "Y", type := "Material", unit_price := 2,
    total_price := 2, percentage_in_invoice := 1, is_expired := false }

def w9rec : Record :=
  { id := .vint 7, created_on := some (.vstr "2024-03-01"),
    items := some [{ item_id := .vstr "k", name := "K", unit_price := .vstr "5",
                     type := some (.vint 1), quantity := .vstr "2" }] }

def w9row : FlatRow :=
  { invoice_id := "7", created_on := "2024-03-01", invoiceitem_id := "k",
    invoiceitem_name := "K", type := "Equipment", unit_price := 5,
    total_price := 10, percentage_in_invoice := 1, is_expired := true }

def c10items : List ItemEntry :=
  [{ item_id := .vstr "1", name := "F", unit_price := .vfloat (109/10),
     type := some (.vint 0), quantity := .vstr "2" },
   { item_id := .vstr "2", name := "S", unit_price := .vstr "10.9",
     type := some (.vint 1), quantity := .vstr "1" },
   { item_id := .vstr "3", name := "N", unit_price := .vstr "-5",
     type := some (.vint 2), quantity := .vstr "1" },
   { item_id := .vstr "4", name := "D", unit_price := .vstr "10",
     type := some (.vint 9), quantity := .vstr "1" }]

def c10rec : Record :=
  { id := .vint 3, created_on := some (.vstr "2024-01-15"), items := some c10items }

def c1rec : Record :=
  { id := .vint 7, created_on := some (.vstr "2024-03-01"),
    items := some [{ item_id := .vint 1, name := "Bolt", unit_price := .vstr "10",
                     type := some (.vint 0), quantity := .vstr "3" }] }

def c1row : FlatRow :=
  { invoice_id := "7", created_on := "2024-03-01", invoiceitem_id := "1",
    invoiceitem_name := "Bolt", type := "Material", unit_price := 10,
    total_price := 30, percentage_in_invoice := 1, is_expired := true }

def c2cexRec : Record :=
  { id := .vint 1, created_on := some (.vstr "2024-03-01"),
    items := some [
      { item_id := .vstr "a", name := "A", unit_price := .vstr "-5",
        type := some (.vint 0), quantity := .vstr "1" },
      { item_id := .vstr "b", name := "B", unit_price := .vstr "10",
        type := some (.vint 1), quantity := .vstr "1" }] }

def c2cexRowA : FlatRow :=
  { invoice_id := "1", created_on := "2024-03-01", invoiceitem_id := "a",
    invoiceitem_name := "A", type := "Material", unit_price := -5,
    total_price := -5, percentage_in_invoice := -(1/2 : ℚ), is_expired := false }

def c2cexRowB : FlatRow :=
  { invoice_id := "1", created_on := "2024-03-01", invoiceitem_id := "b",
    invoiceitem_name := "B", type := "Equipment", unit_price := 10,
    total_price := 10, percentage_in_invoice := 1, is_expired := false }

def c4cexRec : Record :=
  { id := .vint 2, created_on := some (.vstr "2024-01-15"), items := some [w4badItem] }

def c5cexRec : Record :=
  { id := .vint 2, created_on := some (.vstr "2024-01-15"), items := some [w5cItem] }

def c6cexRec : Record :=
  { id := .vint 2, created_on := some (.vstr "2024-01-15"),
    items := some [{ item_id := .vstr "1", name := "Q", unit_price := .vstr "3",
                     type := some (.vint 0), quantity := .vnone }] }

def c6dateRec : Record :=
  { id := .vint 8, created_on := none,
    items := some [{ item_id := .vstr "1", name := "D", unit_price := .vstr "2",
                     type := some (.vint 0), quantity := .vstr "1" }] }

def c6supItem : ItemEntry :=
  { item_id := .vstr "2", name := "S", unit_price := .vstr "1",
    type := some (.vint 0), quantity := .vstr "²" }

def c6supRec : Record :=
  { id := .vint 9, created_on := some (.vstr "2024-01-15"),
    items := some [w6item, c6supItem] }

def c10row1 : FlatRow :=
  { invoice_id := "3", created_on := "2024-01-15", invoiceitem_id := "1",
    invoiceitem_name := "F", type := "Material", unit_price := 10,
    total_price := 20, percentage_in_invoice := 2, is_expired := false }

def c10row3 : FlatRow :=
  { invoice_id := "3", created_on := "2024-01-15", invoiceitem_id := "3",
    invoiceitem_name := "N", type := "Service", unit_price := -5,
    total_price := -5, percentage_in_invoice := -(1/2 : ℚ), is_expired := false }

def c10row4 : FlatRow :=
  { invoice_id := "3", created_on := "2024-01-15", invoiceitem_id := "4",
    invoiceitem_name := "D", type := "Other", unit_price := 10,
    total_price := 10, percentage_in_invoice := 1, is_expired := false }

/-! Basic lemmas about the numeric parsing layer. -/

theorem pydigit_not_whitespace {c : Char} (h : pyCharIsdigit c = true) :
    c.isWhitespace = false := by
  cases hcw : c.isWhitespace
  · rfl
  · have h4 : ((c = ' ' ∨ c = '\t') ∨ c = '\x0d') ∨ c = '\n' := by
      simpa [Char.isWhitespace] using hcw
    rcases h4 with ((rfl | rfl) | rfl) | rfl <;> exact absurd h (by decide)

theorem decDigit_pydigit {c : Char} (h : isDecDigit c = true) : pyCharIsdigit c = true := by
  simp [pyCharIsdigit, h]

theorem all_pydigits_dropWhile_white {l : List Char} (h : l.all pyCharIsdigit = true) :
    l.dropWhile Char.isWhitespace = l := by
  cases l with
  | nil => rfl
  | cons c rest =>
    have hc : pyCharIsdigit c = true := by
      simp [List.all_cons] at h
      exact h.1
    simp [List.dropWhile, pydigit_not_whitespace hc]

theorem trimChars_all_pydigits {l : List Char} (h : l.all pyCharIsdigit = true) :
    trimChars l = l := by
  unfold trimChars
  rw [all_pydigits_dropWhile_white h]
  rw [all_pydigits_dropWhile_white (by simpa using h)]
  simp

theorem all_decDigits_pydigits {l : List Char} (h : l.all isDecDigit = true) :
    l.all pyCharIsdigit = true := by
  rw [List.all_eq_true] at h ⊢
  exact fun x hx => decDigit_pydigit (h x hx)

theorem parseIntStr_of_digits {s : String} (h1 : s.toList.isEmpty = false)
    (h2 : s.toList.all isDecDigit = true) :
    parseIntStr s = some (digitsToNat s.toList : Int) := by
  unfold parseIntStr
  rw [trimChars_all_pydigits (all_decDigits_pydigits h2)]
  cases hl : s.toList with
  | nil => rw [hl] at h1; simp at h1
  | cons c rest =>
    rw [hl] at h2
    have hc : isDecDigit c = true := by
      simp [List.all_cons] at h2
      exact h2.1
    have hminus : c ≠ '-' := by
      rintro rfl
      exact absurd hc (by decide)
    have hplus : c ≠ '+' := by
      rintro rfl
      exact absurd hc (by decide)
    simp [hminus, hplus, h2]

theorem pyIntD_eq_of_ok {v : PyVal} {n : Int} (h : pyInt v = .ok n) : pyIntD v = n := by
  unfold pyIntD
  rw [h]

theorem pyInt_ok_of_pyIntD_ne {v : PyVal} (h : pyIntD v ≠ 0) :
    pyInt v = .ok (pyIntD v) := by
  unfold pyIntD at h ⊢
  cases hp : pyInt v with
  | ok n => rfl
  | error e =>
    rw [hp] at h
    simp at h

theorem parseIntStr_nonneg_of_pydigits {s : String} (h2 : s.toList.all pyCharIsdigit = true)
    {n : Int} (hp : parseIntStr s = some n) : 0 ≤ n := by
  unfold parseIntStr at hp
  rw [trimChars_all_pydigits h2] at hp
  cases hl : s.toList with
  | nil => rw [hl] at hp; simp at hp
  | cons c rest =>
    rw [hl] at hp
    rw [hl] at h2
    have hc : pyCharIsdigit c = true := by
      simp [List.all_cons] at h2
      exact h2.1
    have hminus : c ≠ '-' := by
      rintro rfl
      exact absurd hc (by decide)
    have hplus : c ≠ '+' := by
      rintro rfl
      exact absurd hc (by decide)
    simp only [hminus, hplus, if_false] at hp
    by_cases hdec : ((c :: rest).all isDecDigit) = true
    · rw [if_pos hdec] at hp
      simp only [Option.some.injEq] at hp
      subst hp
      exact Int.ofNat_nonneg _
    · rw [if_neg hdec] at hp
      simp at hp

theorem pyIntD_nonneg_of_isdigit {v : PyVal} (h : pyIsdigit v = true) : 0 ≤ pyIntD v := by
  cases v with
  | vint n => simpa [pyIsdigit, pyIntD, pyInt] using h
  | vfloat q => simp [pyIsdigit] at h
  | vnone => simp [pyIsdigit] at h
  | vstr s =>
    simp only [pyIsdigit, Bool.and_eq_true, Bool.not_eq_true'] at h
    unfold pyIntD pyInt
    cases hp : parseIntStr s with
    | none => simp [hp]
    | some n =>
      simp only [hp]
      exact parseIntStr_nonneg_of_pydigits h.2 hp

/-! Lemmas about the invoice total. -/

theorem foldl_add_eq (f : ItemEntry → Int) (l : List ItemEntry) (a : Int) :
    l.foldl (fun acc e => acc + f e) a = a + (l.map f).sum := by
  induction l generalizing a with
  | nil => simp
  | cons e rest ih =>
    simp only [List.foldl_cons, List.map_cons, List.sum_cons]
    rw [ih]
    ring

theorem invoice_total_eq_sum (items : List ItemEntry) :
    invoice_total items =
      ((items.filter digitOk).map (fun e => pyIntD e.unit_price * pyIntD e.quantity)).sum := by
  unfold invoice_total
  rw [foldl_add_eq]
  simp

theorem invoice_total_nonneg (items : List ItemEntry) : 0 ≤ invoice_total items := by
  rw [invoice_total_eq_sum]
  apply List.sum_nonneg
  intro x hx
  simp only [List.mem_map, List.mem_filter] at hx
  obtain ⟨e, ⟨-, hd⟩, rfl⟩ := hx
  have h1 := pyIntD_nonneg_of_isdigit (v := e.quantity)
    (by simpa [digitOk] using (Bool.and_eq_true _ _ |>.mp hd).1)
  have h2 := pyIntD_nonneg_of_isdigit (v := e.unit_price)
    (by simpa [digitOk] using (Bool.and_eq_true _ _ |>.mp hd).2)
  exact mul_nonneg h2 h1

theorem term_le_invoice_total {items : List ItemEntry} {e : ItemEntry}
    (he : e ∈ items) (hd : digitOk e = true) :
    pyIntD e.unit_price * pyIntD e.quantity ≤ invoice_total items := by
  rw [invoice_total_eq_sum]
  apply List.single_le_sum
  · intro x hx
    simp only [List.mem_map, List.mem_filter] at hx
    obtain ⟨a, ⟨-, had⟩, rfl⟩ := hx
    have h1 := pyIntD_nonneg_of_isdigit (v := a.quantity)
      (by simpa [digitOk] using (Bool.and_eq_true _ _ |>.mp had).1)
    have h2 := pyIntD_nonneg_of_isdigit (v := a.unit_price)
      (by simpa [digitOk] using (Bool.and_eq_true _ _ |>.mp had).2)
    exact mul_nonneg h2 h1
  · exact List.mem_map_of_mem _ (List.mem_filter.mpr ⟨he, hd⟩)

theorem exists_nonzero_term {items : List ItemEntry} (h : invoice_total items ≠ 0) :
    ∃ e ∈ items, digitOk e = true ∧ pyIntD e.unit_price * pyIntD e.quantity ≠ 0 := by
  by_contra hc
  push_neg at hc
  apply h
  rw [invoice_total_eq_sum]
  apply List.sum_eq_zero
  intro x hx
  simp only [List.mem_map, List.mem_filter] at hx
  obtain ⟨e, ⟨he, hd⟩, rfl⟩ := hx
  exact hc e he hd

/-! The fallible line 89-90 sum versus its value. -/

theorem invoice_total_from_ok {t : Int} :
    ∀ (l : List ItemEntry) (acc : Int), invoice_total_from acc l = .ok t →
      t = acc + ((l.filter digitOk).map
        (fun e => pyIntD e.unit_price * pyIntD e.quantity)).sum
  | [], acc, h => by
    simp only [invoice_total_from, Except.ok.injEq] at h
    simp [h.symm]
  | e :: rest, acc, h => by
    unfold invoice_total_from at h
    by_cases hd : digitOk e = true
    · rw [if_pos hd] at h
      cases hu : pyInt e.unit_price with
      | error err => rw [hu] at h; simp at h
      | ok u =>
        rw [hu] at h
        cases hq : pyInt e.quantity with
        | error err => rw [hq] at h; simp at h
        | ok q =>
          rw [hq] at h
          have := invoice_total_from_ok rest (acc + u * q) h
          rw [this, List.filter_cons_of_pos hd]
          simp only [List.map_cons, List.sum_cons]
          rw [pyIntD_eq_of_ok hu, pyIntD_eq_of_ok hq]
          ring
    · rw [if_neg hd] at h
      have := invoice_total_from_ok rest acc h
      rw [this, List.filter_cons_of_neg hd]

theorem invoice_total_exc_ok {items : List ItemEntry} {t : Int}
    (h : invoice_total_exc items = .ok t) : t = invoice_total items := by
  rw [invoice_total_eq_sum]
  simpa using invoice_total_from_ok items 0 h

theorem invoice_total_from_parses :
    ∀ (l : List ItemEntry) (acc : Int),
      (∀ e ∈ l, digitOk e = true →
        (∃ n, pyInt e.unit_price = .ok n) ∧ (∃ m, pyInt e.quantity = .ok m)) →
      ∃ t, invoice_total_from acc l = .ok t
  | [], acc, _ => ⟨acc, rfl⟩
  | e :: rest, acc, h => by
    unfold invoice_total_from
    by_cases hd : digitOk e = true
    · rw [if_pos hd]
      obtain ⟨⟨n, hn⟩, ⟨m, hm⟩⟩ := h e (List.mem_cons_self e rest) hd
      rw [hn, hm]
      exact invoice_total_from_parses rest (acc + n * m)
        (fun a ha => h a (List.mem_cons_of_mem _ ha))
    · rw [if_neg hd]
      exact invoice_total_from_parses rest acc
        (fun a ha => h a (List.mem_cons_of_mem _ ha))

theorem invoice_total_exc_of_parses {items : List ItemEntry}
    (h : ∀ e ∈ items, digitOk e = true →
      (∃ n, pyInt e.unit_price = .ok n) ∧ (∃ m, pyInt e.quantity = .ok m)) :
    invoice_total_exc items = .ok (invoice_total items) := by
  obtain ⟨t, ht⟩ := invoice_total_from_parses items 0 h
  have ht2 : invoice_total_exc items = .ok t := ht
  rw [ht2, invoice_total_exc_ok ht2]

theorem invoice_total_from_all_parse {t : Int} :
    ∀ (l : List ItemEntry) (acc : Int), invoice_total_from acc l = .ok t →
      ∀ e ∈ l, digitOk e = true →
        pyInt e.unit_price = .ok (pyIntD e.unit_price) ∧
        pyInt e.quantity = .ok (pyIntD e.quantity)
  | [], _, _, e, he => by simp at he
  | a :: rest, acc, h, e, he => by
    intro hd
    unfold invoice_total_from at h
    rcases List.mem_cons.mp he with rfl | hmem
    · rw [if_pos hd] at h
      cases hu : pyInt e.unit_price with
      | error err => rw [hu] at h; simp at h
      | ok u =>
        rw [hu] at h
        cases hq : pyInt e.quantity with
        | error err => rw [hq] at h; simp at h
        | ok q =>
          rw [pyIntD_eq_of_ok hu, pyIntD_eq_of_ok hq]
          exact ⟨rfl, rfl⟩
    · by_cases hda : digitOk a = true
      · rw [if_pos hda] at h
        cases hu : pyInt a.unit_price with
        | error err => rw [hu] at h; simp at h
        | ok u =>
          rw [hu] at h
          cases hq : pyInt a.quantity with
          | error err => rw [hq] at h; simp at h
          | ok q =>
            rw [hq] at h
            exact invoice_total_from_all_parse rest _ h e hmem hd
      · rw [if_neg hda] at h
        exact invoice_total_from_all_parse rest acc h e hmem hd

theorem invoice_total_exc_parses {items : List ItemEntry} {t : Int}
    (h : invoice_total_exc items = .ok t) :
    ∀ e ∈ items, digitOk e = true →
      pyInt e.unit_price = .ok (pyIntD e.unit_price) ∧
      pyInt e.quantity = .ok (pyIntD e.quantity) :=
  invoice_total_from_all_parse items 0 h

/-! Characterisation of the per-item step. -/

theorem process_item_emits {inv cre : String} {exp : Bool} {items : List ItemEntry}
    {e : ItemEntry} {row : FlatRow}
    (h : process_item inv cre exp items e = .ok (some row)) :
    ∃ up qn tv, pyInt e.unit_price = .ok up ∧ e.type = some tv ∧ pyInt e.quantity = .ok qn ∧
      invoice_total_exc items = .ok (invoice_total items) ∧
      row = { invoice_id := inv, created_on := cre, invoiceitem_id := ensure_str e.item_id,
              invoiceitem_name := e.name, type := type_conversion tv, unit_price := up,
              total_price := up * qn,
              percentage_in_invoice :=
                if invoice_total items ≠ 0 then
                  ((up * qn : Int) : ℚ) / (invoice_total items : ℚ)
                else 0,
              is_expired := exp } := by
  unfold process_item at h
  cases hup : pyInt e.unit_price with
  | error err =>
    rw [hup] at h
    cases err <;> simp at h
  | ok up =>
    rw [hup] at h
    cases htv : e.type with
    | none =>
      rw [htv] at h
      simp at h
    | some tv =>
      rw [htv] at h
      cases hqn : pyInt e.quantity with
      | error err =>
        rw [hqn] at h
        cases err <;> simp at h
      | ok qn =>
        rw [hqn] at h
        cases hexc : invoice_total_exc items with
        | error err =>
          rw [hexc] at h
          simp at h
        | ok T =>
          rw [hexc] at h
          have hT := invoice_total_exc_ok hexc
          subst hT
          simp only [Except.ok.injEq, Option.some.injEq] at h
          exact ⟨up, qn, tv, rfl, rfl, rfl, rfl, h.symm⟩

/-! Provenance: every output row arises from a record and an item. -/

theorem process_items_rows {inv cre : String} {exp : Bool} {items : List ItemEntry} :
    ∀ (l : List ItemEntry) (rows : List FlatRow),
      process_items inv cre exp items l = .ok rows →
      ∀ row ∈ rows, ∃ e ∈ l, process_item inv cre exp items e = .ok (some row)
  | [], rows, h => by
    simp only [process_items, Except.ok.injEq] at h
    subst h
    intro row hrow
    simp at hrow
  | e :: rest, rows, h => by
    intro row hrow
    unfold process_items at h
    cases hpi : process_item inv cre exp items e with
    | error err => rw [hpi] at h; simp at h
    | ok o =>
      rw [hpi] at h
      cases o with
      | none =>
        obtain ⟨a, ha, hpa⟩ := process_items_rows rest rows h row hrow
        exact ⟨a, List.mem_cons_of_mem _ ha, hpa⟩
      | some r =>
        cases hrest : process_items inv cre exp items rest with
        | error err => rw [hrest] at h; simp at h
        | ok rs =>
          rw [hrest] at h
          simp only [Except.ok.injEq] at h
          subst h
          rcases List.mem_cons.mp hrow with rfl | hmem
          · exact ⟨e, List.mem_cons_self e rest, hpi⟩
          · obtain ⟨a, ha, hpa⟩ := process_items_rows rest rs hrest row hmem
            exact ⟨a, List.mem_cons_of_mem _ ha, hpa⟩

theorem process_record_rows {expired : List String} {r : Record} {rows : List FlatRow}
    (h : process_record expired r = .ok rows) :
    ∀ row ∈ rows, ∃ d items, r.created_on = some d ∧ r.items = some items ∧ ∃ e ∈ items,
      process_item (ensure_str r.id) (created_on_of d)
        (expired.contains (ensure_str r.id)) items e = .ok (some row) := by
  intro row hrow
  cases hco : r.created_on with
  | none =>
    simp only [process_record, hco] at h
    simp at h
  | some d =>
    simp only [process_record, hco] at h
    cases hit : r.items with
    | none =>
      rw [hit] at h
      simp only [Except.ok.injEq] at h
      subst h
      simp at hrow
    | some items =>
      rw [hit] at h
      obtain ⟨e, he, hpe⟩ := process_items_rows items rows h row hrow
      exact ⟨d, items, rfl, rfl, e, he, hpe⟩

theorem flat_data_rows {expired : List String} :
    ∀ {records : List Record} {rows : List FlatRow},
      flat_data expired records = .ok rows →
      ∀ row ∈ rows, ∃ r ∈ records, ∃ rrows, process_record expired r = .ok rrows ∧ row ∈ rrows := by
  intro records
  induction records with
  | nil =>
    intro rows h row hrow
    simp only [flat_data, Except.ok.injEq] at h
    subst h
    simp at hrow
  | cons r rs ih =>
    intro rows h row hrow
    unfold flat_data at h
    cases hpr : process_record expired r with
    | error err => rw [hpr] at h; simp at h
    | ok rrows =>
      rw [hpr] at h
      cases hfd : flat_data expired rs with
      | error err => rw [hfd] at h; simp at h
      | ok rest =>
        rw [hfd] at h
        simp only [Except.ok.injEq] at h
        subst h
        rcases List.mem_append.mp hrow with hmem | hmem
        · exact ⟨r, List.mem_cons_self r rs, rrows, hpr, hmem⟩
        · obtain ⟨a, ha, b, hb, hmemb⟩ := ih hfd row hmem
          exact ⟨a, List.mem_cons_of_mem _ ha, b, hb, hmemb⟩

theorem transform_rows {expired : List String} {records : List Record} {rows : List FlatRow}
    (h : transform_data expired (some records) = .ok rows) :
    ∀ row ∈ rows, ∃ r ∈ records, ∃ rrows, process_record expired r = .ok rrows ∧ row ∈ rrows := by
  intro row hrow
  simp only [transform_data] at h
  cases hfd : flat_data expired records with
  | error err => rw [hfd] at h; simp at h
  | ok flat =>
    rw [hfd] at h
    simp only [Except.ok.injEq] at h
    subst h
    exact flat_data_rows hfd row (List.mem_insertionSort rowLeP |>.mp hrow)

/-! Skipping and propagation behaviour of the item loop. -/

theorem process_item_skip_unit_price {inv cre : String} {exp : Bool} {items : List ItemEntry}
    {e : ItemEntry} (h : pyInt e.unit_price = .error .valueError) :
    process_item inv cre exp items e = .ok none := by
  unfold process_item
  rw [h]

theorem process_item_skip_quantity {inv cre : String} {exp : Bool} {items : List ItemEntry}
    {e : ItemEntry} {up : Int} {tv : PyVal} (hup : pyInt e.unit_price = .ok up)
    (htv : e.type = some tv) (hq : pyInt e.quantity = .error .valueError) :
    process_item inv cre exp items e = .ok none := by
  unfold process_item
  rw [hup, htv, hq]

theorem process_items_skip {inv cre : String} {exp : Bool} {items : List ItemEntry}
    {e : ItemEntry} (rest : List ItemEntry)
    (h : process_item inv cre exp items e = .ok none) :
    process_items inv cre exp items (e :: rest) = process_items inv cre exp items rest := by
  simp only [process_items, h]

theorem process_items_propagate {inv cre : String} {exp : Bool} {items : List ItemEntry}
    {e : ItemEntry} {err : PyErr} (rest : List ItemEntry)
    (h : process_item inv cre exp items e = .error err) :
    process_items inv cre exp items (e :: rest) = .error err := by
  simp only [process_items, h]

theorem process_items_ok_no_error {inv cre : String} {exp : Bool} {items : List ItemEntry} :
    ∀ (l : List ItemEntry) (rows : List FlatRow),
      process_items inv cre exp items l = .ok rows →
      ∀ e ∈ l, ∀ err, process_item inv cre exp items e ≠ .error err
  | [], _, _, e, he => by simp at he
  | a :: rest, rows, h, e, he => by
    intro err hcontra
    unfold process_items at h
    cases hpa : process_item inv cre exp items a with
    | error err2 => rw [hpa] at h; simp at h
    | ok o =>
      rcases List.mem_cons.mp he with rfl | hmem
      · rw [hpa] at hcontra
        simp at hcontra
      · rw [hpa] at h
        cases o with
        | none => exact process_items_ok_no_error rest rows h e hmem err hcontra
        | some r =>
          cases hrest : process_items inv cre exp items rest with
          | error err2 => rw [hrest] at h; simp at h
          | ok rs => exact process_items_ok_no_error rest rs hrest e hmem err hcontra

theorem process_item_type_error {inv cre : String} {exp : Bool} {items : List ItemEntry}
    {e : ItemEntry} (h : pyInt e.unit_price = .error .typeError) :
    process_item inv cre exp items e = .error .typeError := by
  unfold process_item
  rw [h]

/-! Totality of the transform on inputs that only fail in catchable ways. -/

theorem pyInt_not_typeError {v : PyVal} (hv : v ≠ .vnone) : pyInt v ≠ .error .typeError := by
  cases v with
  | vint n => simp [pyInt]
  | vfloat q => simp [pyInt]
  | vnone => exact absurd rfl hv
  | vstr s =>
    unfold pyInt
    cases hp : parseIntStr s <;> simp [hp]

theorem process_item_total {inv cre : String} {exp : Bool} {items : List ItemEntry}
    {e : ItemEntry} (ht : e.type.isSome = true)
    (hup : e.unit_price ≠ .vnone) (hq : e.quantity ≠ .vnone)
    (hexc : ∃ T, invoice_total_exc items = .ok T) :
    ∃ o, process_item inv cre exp items e = .ok o := by
  unfold process_item
  cases hu : pyInt e.unit_price with
  | error err =>
    cases err with
    | valueError => exact ⟨none, rfl⟩
    | typeError => exact absurd hu (pyInt_not_typeError hup)
    | keyError =>
      exfalso
      revert hu
      cases e.unit_price with
      | vstr s => unfold pyInt; cases hp : parseIntStr s <;> simp [hp]
      | vint n => simp [pyInt]
      | vfloat q => simp [pyInt]
      | vnone => simp [pyInt]
  | ok up =>
    cases htv : e.type with
    | none => rw [htv] at ht; simp at ht
    | some tv =>
      cases hqn : pyInt e.quantity with
      | error err =>
        cases err with
        | valueError => exact ⟨none, rfl⟩
        | typeError => exact absurd hqn (pyInt_not_typeError hq)
        | keyError =>
          exfalso
          revert hqn
          cases e.quantity with
          | vstr s => unfold pyInt; cases hp : parseIntStr s <;> simp [hp]
          | vint n => simp [pyInt]
          | vfloat q => simp [pyInt]
          | vnone => simp [pyInt]
      | ok qn =>
        obtain ⟨T, hT⟩ := hexc
        rw [hT]
        exact ⟨_, rfl⟩

theorem process_items_total {inv cre : String} {exp : Bool} {items : List ItemEntry} :
    ∀ (l : List ItemEntry),
      (∀ e ∈ l, e.type.isSome = true ∧ e.unit_price ≠ .vnone ∧ e.quantity ≠ .vnone) →
      (∃ T, invoice_total_exc items = .ok T) →
      ∃ rows, process_items inv cre exp items l = .ok rows
  | [], _, _ => ⟨[], rfl⟩
  | e :: rest, h, hexc => by
    obtain ⟨ht, hup, hq⟩ := h e (List.mem_cons_self e rest)
    obtain ⟨o, ho⟩ := @process_item_total inv cre exp items e ht hup hq hexc
    obtain ⟨rows, hrows⟩ := process_items_total rest
      (fun a ha => h a (List.mem_cons_of_mem _ ha)) hexc
    cases o with
    | none =>
      refine ⟨rows, ?_⟩
      unfold process_items
      rw [ho, hrows]
    | some r =>
      refine ⟨r :: rows, ?_⟩
      unfold process_items
      rw [ho, hrows]

theorem process_record_total {expired : List String} {r : Record}
    (hco : r.created_on.isSome = true)
    (h : ∀ items, r.items = some items →
      ∀ e ∈ items, e.type.isSome = true ∧ e.unit_price ≠ .vnone ∧ e.quantity ≠ .vnone ∧
        (digitOk e = true →
          (∃ n, pyInt e.unit_price = .ok n) ∧ (∃ m, pyInt e.quantity = .ok m))) :
    ∃ rows, process_record expired r = .ok rows := by
  obtain ⟨d, hd⟩ := Option.isSome_iff_exists.mp hco
  cases hit : r.items with
  | none => exact ⟨[], by simp [process_record, hd, hit]⟩
  | some items =>
    have hexc : ∃ T, invoice_total_exc items = .ok T :=
      ⟨invoice_total items,
        invoice_total_exc_of_parses (fun e he hdig => (h items hit e he).2.2.2 hdig)⟩
    obtain ⟨rows, hrows⟩ := process_items_total items
      (fun e he => ⟨(h items hit e he).1, (h items hit e he).2.1, (h items hit e he).2.2.1⟩)
      hexc
    refine ⟨rows, ?_⟩
    simp only [process_record, hd, hit]
    exact hrows

theorem flat_data_total {expired : List String} :
    ∀ {records : List Record},
      (∀ r ∈ records, r.created_on.isSome = true ∧
        ∀ items, r.items = some items →
        ∀ e ∈ items, e.type.isSome = true ∧ e.unit_price ≠ .vnone ∧ e.quantity ≠ .vnone ∧
          (digitOk e = true →
            (∃ n, pyInt e.unit_price = .ok n) ∧ (∃ m, pyInt e.quantity = .ok m))) →
      ∃ rows, flat_data expired records = .ok rows := by
  intro records
  induction records with
  | nil => exact fun _ => ⟨[], rfl⟩
  | cons r rs ih =>
    intro h
    obtain ⟨rows, hrows⟩ := @process_record_total expired r
      (h r (List.mem_cons_self r rs)).1 (h r (List.mem_cons_self r rs)).2
    obtain ⟨rest, hrest⟩ := ih (fun a ha => h a (List.mem_cons_of_mem _ ha))
    refine ⟨rows ++ rest, ?_⟩
    unfold flat_data
    rw [hrows, hrest]

/-! The item loop on an invoice whose items all convert cleanly. -/

theorem process_item_parse_emits {inv cre : String} {exp : Bool} {items : List ItemEntry}
    {e : ItemEntry} {tv : PyVal} (htv : e.type = some tv)
    (hup : pyInt e.unit_price = .ok (pyIntD e.unit_price))
    (hq : pyInt e.quantity = .ok (pyIntD e.quantity))
    (hexc : invoice_total_exc items = .ok (invoice_total items)) :
    process_item inv cre exp items e = .ok (some {
      invoice_id := inv, created_on := cre, invoiceitem_id := ensure_str e.item_id,
      invoiceitem_name := e.name, type := type_conversion tv,
      unit_price := pyIntD e.unit_price,
      total_price := pyIntD e.unit_price * pyIntD e.quantity,
      percentage_in_invoice :=
        if invoice_total items ≠ 0 then
          ((pyIntD e.unit_price * pyIntD e.quantity : Int) : ℚ) / (invoice_total items : ℚ)
        else 0,
      is_expired := exp }) := by
  unfold process_item
  rw [hup, htv, hq, hexc]

theorem process_items_all_digit {inv cre : String} {exp : Bool} {items : List ItemEntry} :
    ∀ (l : List ItemEntry),
      (∀ e ∈ l, e.type.isSome = true ∧
        pyInt e.unit_price = .ok (pyIntD e.unit_price) ∧
        pyInt e.quantity = .ok (pyIntD e.quantity)) →
      invoice_total_exc items = .ok (invoice_total items) →
      ∃ rows, process_items inv cre exp items l = .ok rows ∧
        rows.map (fun row => row.percentage_in_invoice) =
          l.map (fun e =>
            if invoice_total items ≠ 0 then
              ((pyIntD e.unit_price * pyIntD e.quantity : Int) : ℚ) / (invoice_total items : ℚ)
            else 0)
  | [], _, _ => ⟨[], rfl, rfl⟩
  | e :: rest, h, hexc => by
    obtain ⟨ht, hpu, hpq⟩ := h e (List.mem_cons_self e rest)
    obtain ⟨tv, htv⟩ := Option.isSome_iff_exists.mp ht
    obtain ⟨rows, hrows, hmap⟩ := @process_items_all_digit inv cre exp items rest
      (fun a ha => h a (List.mem_cons_of_mem _ ha)) hexc
    refine ⟨{ invoice_id := inv, created_on := cre, invoiceitem_id := ensure_str e.item_id,
              invoiceitem_name := e.name, type := type_conversion tv,
              unit_price := pyIntD e.unit_price,
              total_price := pyIntD e.unit_price * pyIntD e.quantity,
              percentage_in_invoice :=
                if invoice_total items ≠ 0 then
                  ((pyIntD e.unit_price * pyIntD e.quantity : Int) : ℚ) / (invoice_total items : ℚ)
                else 0,
              is_expired := exp } :: rows, ?_, ?_⟩
    · unfold process_items
      rw [process_item_parse_emits htv hpu hpq hexc, hrows]
    · simp only [List.map_cons, hmap]

theorem list_sum_div (l : List ℚ) (T : ℚ) : (l.map (fun x => x / T)).sum = l.sum / T := by
  induction l with
  | nil => simp
  | cons x rest ih =>
    simp only [List.map_cons, List.sum_cons, ih]
    rw [add_div]

theorem cast_sum_map (f : ItemEntry → Int) (l : List ItemEntry) :
    (((l.map f).sum : Int) : ℚ) = (l.map (fun e => ((f e : Int) : ℚ))).sum := by
  induction l with
  | nil => simp
  | cons x rest ih => simp [ih]

/-! Order-theoretic facts about the sort key comparison. -/

theorem charsLt_irrefl : ∀ l : List Char, charsLt l l = false
  | [] => rfl
  | c :: rest => by
    unfold charsLt
    simp [charsLt_irrefl rest]

theorem charsLt_trans : ∀ (x y z : List Char),
    charsLt x y = true → charsLt y z = true → charsLt x z = true
  | x, y, z => by
    induction x generalizing y z with
    | nil =>
      cases y with
      | nil => intro h; simp [charsLt] at h
      | cons b bs =>
        cases z with
        | nil => intro _ h; simp [charsLt] at h
        | cons c cs => intro _ _; rfl
    | cons a as ih =>
      cases y with
      | nil => intro h; simp [charsLt] at h
      | cons b bs =>
        cases z with
        | nil => intro _ h; simp [charsLt] at h
        | cons c cs =>
          intro h1 h2
          unfold charsLt at h1 h2 ⊢
          by_cases hab : a.toNat < b.toNat <;> by_cases hba : b.toNat < a.toNat <;>
            by_cases hbc : b.toNat < c.toNat <;> by_cases hcb : c.toNat < b.toNat <;>
            by_cases hac : a.toNat < c.toNat <;> by_cases hca : c.toNat < a.toNat <;>
            simp_all <;>
            first
            | omega
            | exact ih bs cs h1 h2
            | exact Or.inr (ih bs cs h1 h2)

theorem charsLt_conn : ∀ (x y : List Char),
    charsLt x y = false → charsLt y x = false → x = y
  | [], [], _, _ => rfl
  | [], _ :: _, h, _ => by simp [charsLt] at h
  | _ :: _, [], _, h => by simp [charsLt] at h
  | a :: as, b :: bs, h1, h2 => by
    unfold charsLt at h1 h2
    by_cases hab : a.toNat < b.toNat <;> by_cases hba : b.toNat < a.toNat <;> simp_all
    have hn : a.toNat = b.toNat := by omega
    have hchar : a = b := Char.eq_of_val_eq (UInt32.toNat.inj hn)
    exact ⟨hchar, charsLt_conn as bs h1 h2⟩

theorem pairLt_irrefl (a1 a2 : String) : pairLt a1 a2 a1 a2 = false := by
  simp [pairLt, charsLt_irrefl]

theorem pairLt_trans {a1 a2 b1 b2 c1 c2 : String}
    (h1 : pairLt a1 a2 b1 b2 = true) (h2 : pairLt b1 b2 c1 c2 = true) :
    pairLt a1 a2 c1 c2 = true := by
  simp only [pairLt, Bool.or_eq_true, Bool.and_eq_true, beq_iff_eq] at h1 h2 ⊢
  rcases h1 with h1 | ⟨e1, l1⟩
  · rcases h2 with h2 | ⟨e2, l2⟩
    · exact Or.inl (charsLt_trans _ _ _ h1 h2)
    · exact Or.inl (e2 ▸ h1)
  · rcases h2 with h2 | ⟨e2, l2⟩
    · exact Or.inl (e1 ▸ h2)
    · exact Or.inr ⟨e1.trans e2, charsLt_trans _ _ _ l1 l2⟩

theorem pairLt_conn {a1 a2 b1 b2 : String}
    (h1 : pairLt a1 a2 b1 b2 = false) (h2 : pairLt b1 b2 a1 a2 = false) :
    a1.toList = b1.toList ∧ a2.toList = b2.toList := by
  cases hc1 : charsLt a1.toList b1.toList with
  | true => rw [pairLt, hc1] at h1; simp at h1
  | false =>
    cases hc2 : charsLt b1.toList a1.toList with
    | true => rw [pairLt, hc2] at h2; simp at h2
    | false =>
      have e1 : a1.toList = b1.toList := charsLt_conn _ _ hc1 hc2
      refine ⟨e1, ?_⟩
      rw [pairLt, hc1, e1] at h1
      rw [pairLt, hc2, e1] at h2
      simp only [Bool.false_or, beq_self_eq_true, Bool.true_and] at h1 h2
      exact charsLt_conn _ _ h1 h2

theorem pairLt_congr_left {x1 x2 y1 y2 z1 z2 : String}
    (e1 : x1.toList = y1.toList) (e2 : x2.toList = y2.toList) :
    pairLt x1 x2 z1 z2 = pairLt y1 y2 z1 z2 := by
  unfold pairLt
  rw [e1, e2]

instance : IsTotal FlatRow rowLeP where
  total a b := by
    unfold rowLeP row_le row_lt
    cases hx : pairLt b.invoice_id b.invoiceitem_id a.invoice_id a.invoiceitem_id with
    | false => exact Or.inl (by simp [hx])
    | true =>
      cases hy : pairLt a.invoice_id a.invoiceitem_id b.invoice_id b.invoiceitem_id with
      | false => exact Or.inr (by simp [hy])
      | true =>
        exfalso
        have hx2 := pairLt_trans hy hx
        rw [pairLt_irrefl] at hx2
        exact Bool.false_ne_true hx2

instance : IsTrans FlatRow rowLeP where
  trans a b c hab hbc := by
    unfold rowLeP row_le row_lt at hab hbc ⊢
    have hba : pairLt b.invoice_id b.invoiceitem_id a.invoice_id a.invoiceitem_id = false := by
      simpa using hab
    have hcb : pairLt c.invoice_id c.invoiceitem_id b.invoice_id b.invoiceitem_id = false := by
      simpa using hbc
    cases hca : pairLt c.invoice_id c.invoiceitem_id a.invoice_id a.invoiceitem_id with
    | false => simp [hca]
    | true =>
      exfalso
      cases hbc2 : pairLt b.invoice_id b.invoiceitem_id c.invoice_id c.invoiceitem_id with
      | true =>
        have h := pairLt_trans hbc2 hca
        rw [hba] at h
        exact Bool.false_ne_true h
      | false =>
        obtain ⟨e1, e2⟩ := pairLt_conn hcb hbc2
        rw [pairLt_congr_left e1 e2, hba] at hca
        exact Bool.false_ne_true hca

/-! Claim theorems. -/

/-- C1: for the single-invoice input with id 7 (an int), date 2024-03-01,
one item (Bolt, unit price "10", type 0, quantity "3") and expired set
containing "7", `transform_data` returns exactly one flat row with
invoice_id "7", created_on "2024-03-01", invoiceitem_id "1", name Bolt,
type Material, unit_price 10, total_price 30, percentage 1.0 and
is_expired true. -/
theorem c1_round_trip :
    transform_data ["7"] (some [c1rec]) = .ok [c1row] := by
  simp +decide [c1rec, c1row, transform_data, flat_data, process_record, process_items, process_item,
    invoice_total, invoice_total_exc, invoice_total_from, digitOk, pyIsdigit,
    pyCharIsdigit, isDecDigit, isSupDigit, pyInt, parseIntStr, trimChars, digitsToNat, decDigitVal,
    pyIntD, ensure_str, created_on_of, date_parse, type_conversion,
    charsLt, pairLt, row_lt, row_le, rowLeP]

/-- C2 counterexample: on an invoice holding a negative-price item
(unit price "-5") next to an ordinary one, the transform emits a row
whose percentage_in_invoice is -1/2, which is not in [0, 1], refuting
the claim as stated. -/
theorem c2_counterexample :
    transform_data [] (some [c2cexRec]) = .ok [c2cexRowA, c2cexRowB] ∧
    c2cexRowA.percentage_in_invoice < 0 := by
  constructor
  · simp +decide [c2cexRec, c2cexRowA, c2cexRowB, transform_data, flat_data, process_record, process_items, process_item,
      invoice_total, invoice_total_exc, invoice_total_from, digitOk, pyIsdigit,
    pyCharIsdigit, isDecDigit, isSupDigit, pyInt, parseIntStr, trimChars, digitsToNat, decDigitVal,
      pyIntD, ensure_str, created_on_of, date_parse, type_conversion,
      charsLt, pairLt, row_lt, row_le, rowLeP]
    norm_num
  · simp only [c2cexRowA]
    norm_num

/-- C2 amended: a row whose generating item passes the digit guard has
its percentage in [0, 1] (and exactly 0 when the invoice total is 0);
and when all items of an invoice pass the digit guard and carry a type
field, and the invoice total is nonzero, the percentages of the rows
emitted for that invoice sum to exactly 1 (in exact rational arithmetic;
the Python code computes the same quantity in floating point).  Rows of
items that fail the digit guard (negative or float-string values) can
fall outside [0, 1], as the counterexample shows. -/
theorem c2_amended :
    (∀ (inv cre : String) (exp : Bool) (items : List ItemEntry) (e : ItemEntry) (row : FlatRow),
        e ∈ items → digitOk e = true →
        process_item inv cre exp items e = .ok (some row) →
        0 ≤ row.percentage_in_invoice ∧ row.percentage_in_invoice ≤ 1 ∧
          (invoice_total items = 0 → row.percentage_in_invoice = 0)) ∧
    (∀ (expired : List String) (r : Record) (items : List ItemEntry) (rows : List FlatRow),
        r.items = some items →
        (∀ e ∈ items, digitOk e = true ∧ e.type.isSome = true) →
        invoice_total items ≠ 0 →
        process_record expired r = .ok rows →
        (rows.map (fun row => row.percentage_in_invoice)).sum = 1) := by
  constructor
  · intro inv cre exp items e row hmem hd hpe
    obtain ⟨up, qn, tv, hup, htv, hqn, hexc, hr⟩ := process_item_emits hpe
    have hupd : up = pyIntD e.unit_price := (pyIntD_eq_of_ok hup).symm
    have hqnd : qn = pyIntD e.quantity := (pyIntD_eq_of_ok hqn).symm
    have hu2 : 0 ≤ pyIntD e.unit_price :=
      pyIntD_nonneg_of_isdigit ((Bool.and_eq_true _ _).mp hd).2
    have hq2 : 0 ≤ pyIntD e.quantity :=
      pyIntD_nonneg_of_isdigit ((Bool.and_eq_true _ _).mp hd).1
    subst hr
    by_cases hT : invoice_total items = 0
    · simp [hT]
    · have h0 : 0 < invoice_total items :=
        lt_of_le_of_ne (invoice_total_nonneg items) (Ne.symm hT)
      have htp0 : 0 ≤ up * qn := by
        rw [hupd, hqnd]; exact mul_nonneg hu2 hq2
      have htple : up * qn ≤ invoice_total items := by
        rw [hupd, hqnd]; exact term_le_invoice_total hmem hd
      simp only [hT, ne_eq, not_false_iff, if_true]
      refine ⟨?_, ?_, ?_⟩
      · exact div_nonneg (by exact_mod_cast htp0) (by exact_mod_cast le_of_lt h0)
      · rw [div_le_one (by exact_mod_cast h0)]
        exact_mod_cast htple
      · exact fun h => h.elim
  · intro expired r items rows hit hall hnz hpr
    cases hco : r.created_on with
    | none =>
      simp only [process_record, hco] at hpr
      simp at hpr
    | some d =>
    simp only [process_record, hco, hit] at hpr
    cases hexc : invoice_total_exc items with
    | error err =>
      exfalso
      obtain ⟨e0, he0, hd0, hterm⟩ := exists_nonzero_term hnz
      have hup0 : pyIntD e0.unit_price ≠ 0 := fun hz => hterm (by rw [hz, zero_mul])
      have hq0 : pyIntD e0.quantity ≠ 0 := fun hz => hterm (by rw [hz, mul_zero])
      obtain ⟨tv0, htv0⟩ := Option.isSome_iff_exists.mp (hall e0 he0).2
      have hpe0 : process_item (ensure_str r.id) (created_on_of d)
          (expired.contains (ensure_str r.id)) items e0 = .error err := by
        unfold process_item
        rw [pyInt_ok_of_pyIntD_ne hup0, htv0, pyInt_ok_of_pyIntD_ne hq0, hexc]
      exact process_items_ok_no_error items rows hpr e0 he0 err hpe0
    | ok T =>
    have hT := invoice_total_exc_ok hexc
    subst hT
    have hparse := invoice_total_exc_parses hexc
    obtain ⟨rows2, hrows2, hmap⟩ := @process_items_all_digit (ensure_str r.id)
      (created_on_of d) (List.contains expired (ensure_str r.id)) items items
      (fun e he => ⟨(hall e he).2, (hparse e he (hall e he).1).1,
        (hparse e he (hall e he).1).2⟩)
      hexc
    rw [hrows2] at hpr
    have hre : rows2 = rows := Except.ok.inj hpr
    subst hre
    rw [hmap]
    have hfun : (fun e => if invoice_total items ≠ 0 then
        ((pyIntD e.unit_price * pyIntD e.quantity : Int) : ℚ) / (invoice_total items : ℚ)
        else 0) =
        (fun e : ItemEntry =>
          ((pyIntD e.unit_price * pyIntD e.quantity : Int) : ℚ) / (invoice_total items : ℚ)) := by
      funext e
      rw [if_pos hnz]
    rw [hfun]
    have hdiv := list_sum_div
      (items.map (fun e => ((pyIntD e.unit_price * pyIntD e.quantity : Int) : ℚ)))
      ((invoice_total items : Int) : ℚ)
    rw [List.map_map] at hdiv
    have hcomp : ((fun x => x / ((invoice_total items : Int) : ℚ)) ∘
        (fun e => ((pyIntD e.unit_price * pyIntD e.quantity : Int) : ℚ))) =
        (fun e : ItemEntry =>
          ((pyIntD e.unit_price * pyIntD e.quantity : Int) : ℚ) / (invoice_total items : ℚ)) := rfl
    rw [hcomp] at hdiv
    rw [hdiv]
    rw [← cast_sum_map (fun e => pyIntD e.unit_price * pyIntD e.quantity) items]
    have hfil : items.filter digitOk = items :=
      List.filter_eq_self.mpr (fun e he => (hall e he).1)
    have hT := invoice_total_eq_sum items
    rw [hfil] at hT
    rw [← hT]
    exact div_self (by exact_mod_cast hnz)

/-- C2 witness: the amended theorem applied at a concrete invoice with
one digit-clean item (price "10", quantity "2"). -/
theorem c2_witness :
    (w2item ∈ [w2item] ∧ digitOk w2item = true ∧
      (0 ≤ w2row.percentage_in_invoice ∧ w2row.percentage_in_invoice ≤ 1 ∧
        (invoice_total [w2item] = 0 → w2row.percentage_in_invoice = 0))) ∧
    (invoice_total [w2item] ≠ 0 ∧
      (([w2row].map (fun row => row.percentage_in_invoice)).sum = 1)) := by
  refine ⟨⟨by simp, by decide, ?_⟩, by decide, ?_⟩
  · exact c2_amended.1 "5" "2024-05-01" false [w2item] w2item w2row (by simp) (by decide)
      (by simp +decide [process_item, invoice_total, invoice_total_exc, invoice_total_from,
        digitOk, pyIsdigit, pyCharIsdigit, isDecDigit, isSupDigit, pyInt, parseIntStr,
        trimChars, digitsToNat, decDigitVal, pyIntD, ensure_str, type_conversion,
        w2item, w2row])
  · exact c2_amended.2 [] w2rec [w2item] [w2row] rfl (by decide) (by decide)
      (by simp +decide [process_record, process_items, process_item, invoice_total,
        invoice_total_exc, invoice_total_from, digitOk, pyIsdigit, pyCharIsdigit,
        isDecDigit, isSupDigit, pyInt, parseIntStr, trimChars, digitsToNat, decDigitVal,
        pyIntD, ensure_str,
        created_on_of, date_parse, type_conversion, w2item, w2rec, w2row])

/-- C3: every row emitted for an invoice carries the one shared
denominator `invoice_total items` in its percentage (with the
zero-total guard), and that total is the sum of unit_price × quantity
over exactly the items passing the all-digits guard; items failing the
guard are excluded from the total yet may still be emitted. -/
theorem c3_denominator :
    ∀ (expired : List String) (r : Record) (items : List ItemEntry) (rows : List FlatRow),
      r.items = some items → process_record expired r = .ok rows →
      (∀ row ∈ rows, row.percentage_in_invoice =
        if invoice_total items = 0 then 0
        else (row.total_price : ℚ) / (invoice_total items : ℚ)) ∧
      invoice_total items =
        ((items.filter digitOk).map (fun e => pyIntD e.unit_price * pyIntD e.quantity)).sum := by
  intro expired r items rows hit hpr
  refine ⟨?_, invoice_total_eq_sum items⟩
  intro row hrow
  cases hco : r.created_on with
  | none =>
    simp only [process_record, hco] at hpr
    simp at hpr
  | some d =>
    simp only [process_record, hco, hit] at hpr
    obtain ⟨e, he, hpe⟩ := process_items_rows items rows hpr row hrow
    obtain ⟨up, qn, tv, hup, htv, hqn, hexc, hr⟩ := process_item_emits hpe
    subst hr
    by_cases hT : invoice_total items = 0 <;> simp [hT]

/-- C3 witness: the theorem applied to a one-item invoice with a
malformed date (price "3", quantity "4", type 2). -/
theorem c3_witness :
    w3rec.items = some [w3item] ∧ process_record [] w3rec = .ok [w3row] ∧
    ((∀ row ∈ [w3row], row.percentage_in_invoice =
        if invoice_total [w3item] = 0 then 0
        else (row.total_price : ℚ) / (invoice_total [w3item] : ℚ)) ∧
      invoice_total [w3item] =
        (([w3item].filter digitOk).map (fun e => pyIntD e.unit_price * pyIntD e.quantity)).sum) := by
  have h1 : process_record [] w3rec = .ok [w3row] := by
    simp +decide [process_record, process_items, process_item, invoice_total,
      invoice_total_exc, invoice_total_from, digitOk, pyIsdigit, pyCharIsdigit,
      isDecDigit, isSupDigit, pyInt, parseIntStr, trimChars, digitsToNat, decDigitVal,
      pyIntD, ensure_str,
      created_on_of, date_parse, type_conversion, w3item, w3rec, w3row]
  exact ⟨rfl, h1, c3_denominator [] w3rec [w3item] [w3row] rfl h1⟩

/-- C4 counterexample: an item whose nested mapping has no type key does
not map to Other; the lookup raises KeyError and the transform aborts,
refuting the claim for missing type fields. -/
theorem c4_counterexample :
    transform_data [] (some [c4cexRec]) = .error .keyError := by decide

theorem type_conversion_total (v : PyVal) :
    type_conversion v = "Material" ∨ type_conversion v = "Equipment" ∨
    type_conversion v = "Service" ∨ type_conversion v = "Other" := by
  unfold type_conversion
  split <;> first | (split_ifs <;> simp) | simp

/-- C4 amended: type codes 0, 1, 2 map to Material, Equipment, Service,
and any other present value (including 3) maps to Other, so every
emitted row carries one of the four labels; but an item with no type
field does not default to Other: the lookup raises KeyError (once the
unit price has converted), aborting the transform. -/
theorem c4_amended :
    (type_conversion (.vint 0) = "Material" ∧ type_conversion (.vint 1) = "Equipment" ∧
      type_conversion (.vint 2) = "Service" ∧ type_conversion (.vint 3) = "Other") ∧
    (∀ v : PyVal, type_conversion v = "Material" ∨ type_conversion v = "Equipment" ∨
      type_conversion v = "Service" ∨ type_conversion v = "Other") ∧
    (∀ (expired : List String) (records : List Record) (rows : List FlatRow),
      transform_data expired (some records) = .ok rows →
      ∀ row ∈ rows, row.type = "Material" ∨ row.type = "Equipment" ∨
        row.type = "Service" ∨ row.type = "Other") ∧
    (∀ (inv cre : String) (exp : Bool) (items : List ItemEntry) (e : ItemEntry) (up : Int),
      pyInt e.unit_price = .ok up → e.type = none →
      process_item inv cre exp items e = .error .keyError) := by
  refine ⟨⟨rfl, rfl, rfl, rfl⟩, type_conversion_total, ?_, ?_⟩
  · intro expired records rows htr row hrow
    obtain ⟨r, hr, rrows, hprr, hmemr⟩ := transform_rows htr row hrow
    obtain ⟨d, items, hco, hit, e, he, hpe⟩ := process_record_rows hprr row hmemr
    obtain ⟨up, qn, tv, hup, htv, hqn, hexc, hrw⟩ := process_item_emits hpe
    subst hrw
    exact type_conversion_total tv
  · intro inv cre exp items e up hup hte
    unfold process_item
    rw [hup, hte]

/-- C4 witness: the amended theorem at a concrete unknown code 9 (row
label Other) and at a concrete item with no type key (KeyError). -/
theorem c4_witness :
    (pyInt w4badItem.unit_price = .ok 7 ∧
      process_item "i" "" false [w4badItem] w4badItem = .error .keyError) ∧
    (transform_data [] (some [w4rec]) = .ok [w4row] ∧
      (w4row.type = "Material" ∨ w4row.type = "Equipment" ∨ w4row.type = "Service" ∨
        w4row.type = "Other")) := by
  have ht : transform_data [] (some [w4rec]) = .ok [w4row] := by
    simp +decide [transform_data, flat_data, process_record, process_items, process_item,
      invoice_total, invoice_total_exc, invoice_total_from, digitOk, pyIsdigit,
    pyCharIsdigit, isDecDigit, isSupDigit, pyInt, parseIntStr, trimChars, digitsToNat, decDigitVal,
      pyIntD, ensure_str, created_on_of, date_parse, type_conversion,
      charsLt, pairLt, row_lt, row_le, rowLeP, w4goodItem, w4rec, w4row]
  exact ⟨⟨by decide, c4_amended.2.2.2 "i" "" false [w4badItem] w4badItem 7 (by decide) rfl⟩,
    ht, c4_amended.2.2.1 [] [w4rec] [w4row] ht w4row (by simp)⟩

/-- C5 counterexample: a unit price of None fails `int()` with TypeError,
which the `except ValueError` handler does not catch, so the condition
propagates out of the transform instead of skipping the item. -/
theorem c5_counterexample :
    transform_data [] (some [c5cexRec]) = .error .typeError := by decide

/-- C5 amended: an item whose unit_price or quantity fails integer
conversion with ValueError (the string case) is skipped alone, the rest
of the invoice continuing; but a conversion failing with TypeError (a
None-like value) is not caught and propagates to the caller. -/
theorem c5_amended :
    (∀ (inv cre : String) (exp : Bool) (items : List ItemEntry) (e : ItemEntry)
        (rest : List ItemEntry),
        pyInt e.unit_price = .error .valueError →
        process_items inv cre exp items (e :: rest) = process_items inv cre exp items rest) ∧
    (∀ (inv cre : String) (exp : Bool) (items : List ItemEntry) (e : ItemEntry)
        (rest : List ItemEntry) (up : Int) (tv : PyVal),
        pyInt e.unit_price = .ok up → e.type = some tv →
        pyInt e.quantity = .error .valueError →
        process_items inv cre exp items (e :: rest) = process_items inv cre exp items rest) ∧
    (∀ (inv cre : String) (exp : Bool) (items : List ItemEntry) (e : ItemEntry)
        (rest : List ItemEntry),
        pyInt e.unit_price = .error .typeError →
        process_items inv cre exp items (e :: rest) = .error .typeError) :=
  ⟨fun _ _ _ _ _ rest h =>
      process_items_skip rest (process_item_skip_unit_price h),
   fun _ _ _ _ _ rest _ _ hup htv hq =>
      process_items_skip rest (process_item_skip_quantity hup htv hq),
   fun _ _ _ _ _ rest h =>
      process_items_propagate rest (process_item_type_error h)⟩

/-- C5 witness: the amended theorem at concrete items with a
non-numeric unit price, a non-numeric quantity, and a None unit
price. -/
theorem c5_witness :
    (pyInt w5aItem.unit_price = .error .valueError ∧
      process_items "i" "" false [w5aItem] [w5aItem] = process_items "i" "" false [w5aItem] []) ∧
    (pyInt w5bItem.quantity = .error .valueError ∧
      process_items "i" "" false [w5bItem] [w5bItem] = process_items "i" "" false [w5bItem] []) ∧
    (pyInt w5cItem.unit_price = .error .typeError ∧
      process_items "i" "" false [w5cItem] [w5cItem] = .error .typeError) := by
  refine ⟨⟨by decide, c5_amended.1 "i" "" false [w5aItem] w5aItem [] (by decide)⟩,
    ⟨by decide, c5_amended.2.1 "i" "" false [w5bItem] w5bItem [] 4 (.vint 1)
      (by decide) rfl (by decide)⟩,
    ⟨by decide, c5_amended.2.2 "i" "" false [w5cItem] w5cItem [] (by decide)⟩⟩

/-- C6 counterexample: with data loaded, an item whose quantity is None
makes the transform raise TypeError, refuting the claim that it raises
only when invoked before loading. -/
theorem c6_counterexample :
    transform_data [] (some [c6cexRec]) = .error .typeError := by decide

/-- C6 amended: the transform raises ValueError when invoked before any
data is loaded; with data loaded it completes without raising provided
every record carries a created_on key, every item carries a type field,
no unit_price or quantity is a None-like value, and every field passing
the digit guard actually converts to an integer.  Each proviso marks a
real abort path: a record without a created_on key raises KeyError at
the line 56 subscript (third conjunct), and a guard-passing
digit-but-not-decimal quantity such as the superscript string makes the
line 89 sum raise ValueError (fourth conjunct); missing item lists and
malformed-but-present dates never raise. -/
theorem c6_amended :
    (∀ expired : List String, transform_data expired none = .error .valueError) ∧
    (∀ (expired : List String) (records : List Record),
      (∀ r ∈ records, r.created_on.isSome = true ∧
        ∀ items, r.items = some items →
          ∀ e ∈ items, e.type.isSome = true ∧ e.unit_price ≠ .vnone ∧ e.quantity ≠ .vnone ∧
            (digitOk e = true →
              (∃ n, pyInt e.unit_price = .ok n) ∧ (∃ m, pyInt e.quantity = .ok m))) →
      ∃ rows, transform_data expired (some records) = .ok rows) ∧
    (∀ (expired : List String) (r : Record), r.created_on = none →
      process_record expired r = .error .keyError) ∧
    transform_data [] (some [c6supRec]) = .error .valueError := by
  refine ⟨fun expired => rfl, ?_, ?_, by decide⟩
  · intro expired records h
    obtain ⟨rows, hrows⟩ := flat_data_total h
    refine ⟨rows.insertionSort rowLeP, ?_⟩
    simp only [transform_data]
    rw [hrows]
  · intro expired r hco
    simp [process_record, hco]

/-- C6 witness: the amended theorem at an unloaded store, at a loaded
one-record dataset meeting every proviso, and at a record with no
created_on key. -/
theorem c6_witness :
    transform_data ["7"] none = .error .valueError ∧
    (∃ rows, transform_data [] (some [w6rec]) = .ok rows) ∧
    (c6dateRec.created_on = none ∧
      process_record [] c6dateRec = .error .keyError) := by
  refine ⟨c6_amended.1 ["7"], c6_amended.2.1 [] [w6rec] ?_,
    rfl, c6_amended.2.2.1 [] c6dateRec rfl⟩
  intro r hr
  rw [List.mem_singleton] at hr
  subst hr
  refine ⟨rfl, ?_⟩
  intro items hit e he
  have hi : items = [w6item] := by
    have h2 := hit
    simp only [w6rec, Option.some.injEq] at h2
    exact h2.symm
  subst hi
  rw [List.mem_singleton] at he
  subst he
  exact ⟨rfl, by decide, by decide, fun hd => ⟨⟨1, by decide⟩, ⟨1, by decide⟩⟩⟩

/-- C7 counterexample: a blank line is not ignored; it contributes the
empty string to the loaded set, so the result does not contain only
non-empty strings. -/
theorem c7_counterexample :
    "" ∈ load_expired_invoices (some ["7\n", "\n"]) ∧
    ¬ (∀ s ∈ load_expired_invoices (some ["7\n", "\n"]), s ≠ "") := by
  refine ⟨by decide, fun h => h "" (by decide) rfl⟩

/-- C7 amended: a missing file yields the empty set (and the operation
never raises); otherwise the result holds exactly the
whitespace-trimmed forms of the input lines, a blank line contributing
the empty string rather than being ignored. -/
theorem c7_amended :
    load_expired_invoices none = [] ∧
    (∀ lines : List String, load_expired_invoices (some lines) = lines.map pyStrip) ∧
    (∀ (lines : List String) (s : String),
      s ∈ load_expired_invoices (some lines) ↔ ∃ l ∈ lines, pyStrip l = s) := by
  refine ⟨rfl, fun lines => rfl, fun lines s => ?_⟩
  simp [load_expired_invoices]

/-- C8: the transform output is the stable sort of the flattened rows
under the (invoice_id, invoiceitem_id) string-pair order: it is sorted
with respect to that order, is a permutation of the rows in generation
order, and any two rows already in key order in the input (in
particular key ties, via the reflexive rowLeP) keep their relative
order, `List.Sublist` stating that the pair survives in place. -/
theorem c8_sorted :
    ∀ (expired : List String) (records : List Record) (flat : List FlatRow),
      flat_data expired records = .ok flat →
      transform_data expired (some records) = .ok (flat.insertionSort rowLeP) ∧
      List.Sorted rowLeP (flat.insertionSort rowLeP) ∧
      (flat.insertionSort rowLeP).Perm flat ∧
      (∀ a b : FlatRow, rowLeP a b → List.Sublist [a, b] flat →
        List.Sublist [a, b] (flat.insertionSort rowLeP)) := by
  intro expired records flat h
  refine ⟨?_, List.sorted_insertionSort rowLeP flat, List.perm_insertionSort rowLeP flat,
    fun a b hab hs => List.pair_sublist_insertionSort hab hs⟩
  simp only [transform_data]
  rw [h]

/-- C8 witness: two invoices supplied out of key order come back
sorted. -/
theorem c8_witness :
    flat_data [] [w8recA, w8recB] = .ok [w8rowA, w8rowB] ∧
    transform_data [] (some [w8recA, w8recB]) = .ok ([w8rowA, w8rowB].insertionSort rowLeP) ∧
    List.Sorted rowLeP ([w8rowA, w8rowB].insertionSort rowLeP) ∧
    [w8rowA, w8rowB].insertionSort rowLeP = [w8rowB, w8rowA] := by
  have h : flat_data [] [w8recA, w8recB] = .ok [w8rowA, w8rowB] := by
    simp +decide [flat_data, process_record, process_items, process_item,
      invoice_total, invoice_total_exc, invoice_total_from, digitOk, pyIsdigit,
    pyCharIsdigit, isDecDigit, isSupDigit, pyInt, parseIntStr, trimChars, digitsToNat, decDigitVal,
      pyIntD, ensure_str, created_on_of, date_parse, type_conversion,
      w8recA, w8recB, w8rowA, w8rowB]
  have hc := c8_sorted [] [w8recA, w8recB] [w8rowA, w8rowB] h
  refine ⟨h, hc.1, hc.2.1, ?_⟩
  simp +decide [List.insertionSort, List.orderedInsert, rowLeP, row_le, row_lt, pairLt,
    charsLt, w8rowA, w8rowB]

/-- C9: each output row joins its record through the string coercion of
the record id: the row invoice_id is that coercion and is_expired is
exactly the membership test of it against the expired set; in
particular the integer id 7 coerces to "7" and so matches a set entry
"7". -/
theorem c9_is_expired :
    ensure_str (.vint 7) = "7" ∧
    (∀ (expired : List String) (records : List Record) (rows : List FlatRow),
      transform_data expired (some records) = .ok rows →
      ∀ row ∈ rows, ∃ r ∈ records, row.invoice_id = ensure_str r.id ∧
        row.is_expired = expired.contains (ensure_str r.id)) := by
  refine ⟨rfl, ?_⟩
  intro expired records rows htr row hrow
  obtain ⟨r, hr, rrows, hprr, hmemr⟩ := transform_rows htr row hrow
  obtain ⟨d, items, hco, hit, e, he, hpe⟩ := process_record_rows hprr row hmemr
  obtain ⟨up, qn, tv, hup, htv, hqn, hexc, hrw⟩ := process_item_emits hpe
  subst hrw
  exact ⟨r, hr, rfl, rfl⟩

/-- C9 witness: the theorem at the record with integer id 7 against the
expired set entry "7"; the emitted row has is_expired true. -/
theorem c9_witness :
    transform_data ["7"] (some [w9rec]) = .ok [w9row] ∧
    (∃ r ∈ [w9rec], w9row.invoice_id = ensure_str r.id ∧
      w9row.is_expired = ["7"].contains (ensure_str r.id)) := by
  have h : transform_data ["7"] (some [w9rec]) = .ok [w9row] := by
    simp +decide [transform_data, flat_data, process_record, process_items, process_item,
      invoice_total, invoice_total_exc, invoice_total_from, digitOk, pyIsdigit,
    pyCharIsdigit, isDecDigit, isSupDigit, pyInt, parseIntStr, trimChars, digitsToNat, decDigitVal,
      pyIntD, ensure_str, created_on_of, date_parse, type_conversion,
      charsLt, pairLt, row_lt, row_le, rowLeP, w9rec, w9row]
  exact ⟨h, c9_is_expired.2 ["7"] [w9rec] [w9row] h w9row (by simp)⟩

/-- C10: numeric parsing is asymmetric between numbers and strings: the
float 10.9 converts (truncating toward zero, likewise -10.9), while the
string "10.9" raises ValueError and its item is skipped; the string
"-5" converts to -5 and appears in its row, yet the digit guard keeps
it (and the float) out of the invoice-total denominator, which here
comes to 10 from the one all-digit item alone. -/
theorem c10_parsing_asymmetry :
    pyInt (.vfloat (109/10)) = .ok 10 ∧
    pyInt (.vfloat (-(109/10))) = .ok (-10) ∧
    pyInt (.vstr "10.9") = .error .valueError ∧
    pyInt (.vstr "-5") = .ok (-5) ∧
    invoice_total c10items = 10 ∧
    transform_data [] (some [c10rec]) = .ok [c10row1, c10row3, c10row4] := by
  have hnum : ((109 : ℚ)/10).num = 109 := by norm_num
  have hden : ((109 : ℚ)/10).den = 10 := by norm_num
  have hrt : ratTrunc ((109 : ℚ)/10) = 10 := by
    simp +decide [ratTrunc, hnum, hden]
  have hnum2 : (-((109 : ℚ)/10)).num = -109 := by norm_num
  have hden2 : (-((109 : ℚ)/10)).den = 10 := by norm_num
  have hrt2 : ratTrunc (-((109 : ℚ)/10)) = -10 := by
    simp +decide [ratTrunc, hnum2, hden2]
  have h1 : pyInt (.vfloat (109/10)) = .ok 10 := by
    simp [pyInt, hrt]
  have h2 : pyInt (.vfloat (-(109/10))) = .ok (-10) := by
    simp [pyInt, hrt2]
  refine ⟨h1, h2, by decide, by decide, by decide, ?_⟩
  simp +decide [hrt, transform_data, flat_data, process_record, process_items, process_item,
    invoice_total, invoice_total_exc, invoice_total_from, digitOk, pyIsdigit,
    pyCharIsdigit, isDecDigit, isSupDigit, pyInt, parseIntStr, trimChars, digitsToNat, decDigitVal,
    pyIntD, ensure_str, created_on_of, date_parse, type_conversion,
    charsLt, pairLt, row_lt, row_le, rowLeP, c10items, c10rec, c10row1, c10row3, c10row4]
  norm_num
